import Mathlib

/-!
Verification of the SocksAuth SOCKS5 forwarding proxy against its design
specification.  The Go source is shallowly embedded: byte streams are
`List Nat` (each element one byte), reads are explicit prefix consumption,
writes are accumulated output lists, and fallible steps return `Except`.
-/

namespace SocksAuth

/-- Errors produced by the protocol engine, mirroring the failure cases of
`api.go` (read failures, version/command/address-type rejections, the
upstream authentication failures, and the RFC 1928 reply-code failures). -/
inductive SocksErr where
  | readErr : SocksErr
  | unsupportedVersion : Nat → SocksErr
  | noAcceptableAuth : SocksErr
  | authMethodMismatch : Nat → SocksErr
  | authRejected : SocksErr
  | unsupportedCommand : Nat → SocksErr
  | unsupportedAddrType : Nat → SocksErr
  | generalFailure : SocksErr
  | ruleset : SocksErr
  | netUnreachable : SocksErr
  | hostUnreachable : SocksErr
  | connRefused : SocksErr
  | ttlExpired : SocksErr
  | cmdNotSupported : SocksErr
  | addrNotSupported : SocksErr
  | unknownReply : Nat → SocksErr
deriving DecidableEq, Repr

/-- `io.ReadFull` on a buffered stream: consume exactly `n` bytes, failing
when fewer are available. -/
def readN (n : Nat) (s : List Nat) : Option (List Nat × List Nat) :=
  if n ≤ s.length then some (s.take n, s.drop n) else none

/-- The generic `contains` helper of `api.go` (linear scan for an element). -/
def contains (l : List Nat) (x : Nat) : Bool :=
  match l with
  | [] => false
  | y :: ys => if y = x then true else contains ys x

/-- `greetClient` of `api.go`: read 2 header bytes (version, method count),
check the version is 5, read the method list, and answer `[5, 0]` when
method 0 (no authentication) is offered, else `[5, 0xff]` and fail.
Returns the bytes written to the client and, on success, the unread rest of
the client stream. -/
def greetClient (s : List Nat) : List Nat × Except SocksErr (List Nat) :=
  match s with
  | ver :: n :: rest =>
    if ver ≠ 5 then ([], .error (.unsupportedVersion ver))
    else
      match readN n rest with
      | none => ([], .error .readErr)
      | some (methods, s2) =>
        if contains methods 0 then ([5, 0], .ok s2)
        else ([5, 255], .error .noAcceptableAuth)
  | _ => ([], .error .readErr)

/-- The RFC 1929 subnegotiation message built by `authenticateRemoteSocks`:
subversion byte 1, username length byte, username bytes, password length
byte, password bytes.  Go's `byte(len(x))` truncates modulo 256. -/
def authRequestBytes (u p : List Nat) : List Nat :=
  1 :: (u.length % 256) :: (u ++ (p.length % 256) :: p)

/-- `authenticateRemoteSocks` of `api.go`: send the method offer `[5,1,2]`,
read the 2-byte method selection (the second byte must be 2 =
username/password), send the subnegotiation, read the 2-byte status reply
(the second byte must be 0).  Returns the bytes written to the upstream and,
on success, the unread rest of the upstream stream. -/
def authenticateRemoteSocks (rIn : List Nat) (u p : List Nat) :
    List Nat × Except SocksErr (List Nat) :=
  match rIn with
  | _v :: m :: rest =>
    if m ≠ 2 then ([5, 1, 2], .error (.authMethodMismatch m))
    else
      match rest with
      | _sv :: st :: rest2 =>
        if st ≠ 0 then ([5, 1, 2] ++ authRequestBytes u p, .error .authRejected)
        else ([5, 1, 2] ++ authRequestBytes u p, .ok rest2)
      | _ => ([5, 1, 2] ++ authRequestBytes u p, .error .readErr)
  | _ => ([5, 1, 2], .error .readErr)

/-- `readSocks5Request` of `api.go`: read the 4-byte header
(version, command, reserved, address type); reject version ≠ 5; reject
command ≠ CONNECT writing `[5, 7]`; size the address by the type byte
(IPv4 = 4, domain = 1 length byte, kept in the request, plus that many
bytes, IPv6 = 16; otherwise write `[5, 8]` and reject); read address + 2
port bytes (on a short read, write `[5, 1]`).  Returns the bytes written to
the client and, on success, the full request bytes plus the unread rest. -/
def readSocks5Request (s : List Nat) :
    List Nat × Except SocksErr (List Nat × List Nat) :=
  match s with
  | ver :: cmd :: rsv :: atyp :: rest =>
    if ver ≠ 5 then ([], .error (.unsupportedVersion ver))
    else if cmd ≠ 1 then ([5, 7], .error (.unsupportedCommand cmd))
    else if atyp = 1 then
      match readN (4 + 2) rest with
      | some (body, s2) => ([], .ok (ver :: cmd :: rsv :: atyp :: body, s2))
      | none => ([5, 1], .error .readErr)
    else if atyp = 3 then
      match rest with
      | len :: rest2 =>
        match readN (len + 2) rest2 with
        | some (body, s2) => ([], .ok (ver :: cmd :: rsv :: atyp :: len :: body, s2))
        | none => ([5, 1], .error .readErr)
      | [] => ([], .error .readErr)
    else if atyp = 4 then
      match readN (16 + 2) rest with
      | some (body, s2) => ([], .ok (ver :: cmd :: rsv :: atyp :: body, s2))
      | none => ([5, 1], .error .readErr)
    else ([5, 8], .error (.unsupportedAddrType atyp))
  | _ => ([], .error .readErr)

/-- The error assigned to each non-OK RFC 1928 reply code in
`readSocks5Response`. -/
def replyErr (r : Nat) : SocksErr :=
  if r = 1 then .generalFailure
  else if r = 2 then .ruleset
  else if r = 3 then .netUnreachable
  else if r = 4 then .hostUnreachable
  else if r = 5 then .connRefused
  else if r = 6 then .ttlExpired
  else if r = 7 then .cmdNotSupported
  else if r = 8 then .addrNotSupported
  else .unknownReply r

/-- `readSocks5Response` of `api.go`: read the 4-byte header from the
upstream; reject version ≠ 5 (writing `[5, 1]` back on that connection);
map each non-OK reply code to its error (writing `[5, code]`, or `[5, 1]`
for an unknown code); on OK, size the address by the type byte.  For the
domain type the length byte is read but NOT appended to the assembled
response (unlike `readSocks5Request`), exactly as in the source.  Returns
the bytes written to the upstream connection and, on success, the assembled
response bytes plus the unread rest. -/
def readSocks5Response (s : List Nat) :
    List Nat × Except SocksErr (List Nat × List Nat) :=
  match s with
  | ver :: rep :: rsv :: atyp :: rest =>
    if ver ≠ 5 then ([5, 1], .error (.unsupportedVersion ver))
    else if rep = 0 then
      if atyp = 1 then
        match readN (4 + 2) rest with
        | some (body, s2) => ([], .ok (ver :: rep :: rsv :: atyp :: body, s2))
        | none => ([5, 1], .error .readErr)
      else if atyp = 3 then
        match rest with
        | len :: rest2 =>
          match readN (len + 2) rest2 with
          | some (body, s2) => ([], .ok (ver :: rep :: rsv :: atyp :: body, s2))
          | none => ([5, 1], .error .readErr)
        | [] => ([], .error .readErr)
      else if atyp = 4 then
        match readN (16 + 2) rest with
        | some (body, s2) => ([], .ok (ver :: rep :: rsv :: atyp :: body, s2))
        | none => ([5, 1], .error .readErr)
      else ([5, 8], .error (.unsupportedAddrType atyp))
    else if rep ≤ 8 then ([5, rep], .error (replyErr rep))
    else ([5, 1], .error (.unknownReply rep))
  | _ => ([5, 1], .error .readErr)

/-- `sendRemoteRequest` of `api.go`: read the client's CONNECT request,
write it to the upstream, read the upstream's reply, write it to the
client.  Returns (bytes written to the client, bytes written to the
upstream, and on success the unread rests of both streams). -/
def sendRemoteRequest (cIn rIn : List Nat) :
    List Nat × List Nat × Except SocksErr (List Nat × List Nat) :=
  match readSocks5Request cIn with
  | (w, .error e) => (w, [], .error e)
  | (w, .ok (req, cRest)) =>
    match readSocks5Response rIn with
    | (wr, .error e) => (w, req ++ wr, .error e)
    | (wr, .ok (resp, rRest)) => (w ++ resp, req ++ wr, .ok (cRest, rRest))

/-- Observable outcome of one client connection: bytes written to the
client, bytes written to the upstream, the error (if any), and whether the
relay stage (`syncConns`) was reached. -/
structure ConnResult where
  toClient : List Nat
  toRemote : List Nat
  err : Option SocksErr
  relayStarted : Bool
deriving DecidableEq, Repr

/-- `handleConnection` of `api.go`, up to the start of the relay: greet the
client, authenticate to the upstream, forward the CONNECT exchange; any
stage failure aborts the connection without running the later stages.  The
upstream dial is abstracted by supplying the upstream's byte stream
directly. -/
def handleConnection (cIn rIn u p : List Nat) : ConnResult :=
  match greetClient cIn with
  | (w, .error e) => ⟨w, [], some e, false⟩
  | (w, .ok c1) =>
    match authenticateRemoteSocks rIn u p with
    | (wr, .error e) => ⟨w, wr, some e, false⟩
    | (wr, .ok r1) =>
      match sendRemoteRequest c1 r1 with
      | (wc, wr2, .error e) => ⟨w ++ wc, wr ++ wr2, some e, false⟩
      | (wc, wr2, .ok _) => ⟨w ++ wc, wr ++ wr2, none, true⟩

/-- How one copy direction of `syncConns` can terminate: `io.Copy` returns
no error (peer closed gracefully), a connection-reset-by-peer error, or any
other I/O error. -/
inductive CopyEnd where
  | eof : CopyEnd
  | reset : CopyEnd
  | fail : String → CopyEnd
deriving DecidableEq, Repr

/-- The sequence of values one relay goroutine of `syncConns` sends on the
`done` channel: on a reset it first sends `nil` (clean close), and — since
the source's reset branch does not return — then also sends the wrapped
error; on any other error it sends just the wrapped error; on a clean EOF
it sends just `nil`. -/
def copyDirectionSends : CopyEnd → List (Option String)
  | .eof => [none]
  | .reset => [none, some "connection reset by peer"]
  | .fail m => [some m]

/-- Outcome of `syncConns`: the returned error value and whether each
socket has been closed by the time the function returns. -/
structure RelayResult where
  err : Option String
  clientClosed : Bool
  remoteClosed : Bool
deriving DecidableEq, Repr

/-- `syncConns` of `api.go`: both directions send their outcome on a
1-buffered channel; the function receives exactly one value — the first
value sent by whichever direction finishes first — then closes both
sockets and returns that value.  `first` is the termination of the
first-finishing copy direction. -/
def syncConns (first : CopyEnd) : RelayResult :=
  { err := (copyDirectionSends first).headD none
    clientClosed := true
    remoteClosed := true }

/-- A send on a Go channel with capacity `cap` holding `count` buffered
items: it buffers the item when there is room, otherwise it blocks
(`none`). -/
def chanSend (cap count : Nat) : Option Nat :=
  if count < cap then some (count + 1) else none

/-- Slot acquisition in `Start` (`semaphore <- struct{}{}` before
dispatching a connection): a channel send. -/
def acquireSlot (cap count : Nat) : Option Nat :=
  chanSend cap count

/-- Slot release in `Start` after a connection completes: the source also
performs `semaphore <- struct{}{}` — a send on the same channel, not a
receive. -/
def releaseSlot (cap count : Nat) : Option Nat :=
  chanSend cap count

/-- `removeAtIndexNoOrder` of the resolver source: out-of-range indices
leave the slice unchanged; otherwise the element at `idx` is overwritten
with the last element and the last position is dropped. -/
def removeAtIndexNoOrder (a : List α) (idx : Int) : List α :=
  if idx < 0 ∨ (a.length : Int) ≤ idx then a
  else
    match a.getLast? with
    | some last => (a.set idx.toNat last).dropLast
    | none => a

/-- `FindNordVpnServer`'s selection loop: while the pool is non-empty,
pick a candidate (the random draw `rand.Intn(len(servers))` is modelled by
consuming one value of `picks` modulo the pool size), probe it with
`reach`; on success return `hostname ++ ":1080"` leaving the pool as is,
on failure evict the probed candidate and retry.  An empty pool yields no
server (`none`).  The initial HTTP refill is outside this loop and not
modelled here. -/
def findNordVpnServer (reach : String → Bool) :
    List Nat → List String → Option String × List String
  | [], pool => (none, pool)
  | pick :: picks, pool =>
    if h : pool.length = 0 then (none, pool)
    else if reach (pool.get ⟨pick % pool.length, Nat.mod_lt pick (Nat.pos_of_ne_zero h)⟩) then
      (some (pool.get ⟨pick % pool.length, Nat.mod_lt pick (Nat.pos_of_ne_zero h)⟩ ++ ":1080"),
       pool)
    else
      findNordVpnServer reach picks
        (removeAtIndexNoOrder pool (Int.ofNat (pick % pool.length)))

/-! Helper lemmas shared by several claim theorems. -/

theorem contains_iff_mem (l : List Nat) (x : Nat) : contains l x = true ↔ x ∈ l := by
  induction l with
  | nil => simp [contains]
  | cons y ys ih =>
    by_cases hxy : y = x
    · simp [contains, hxy]
    · simp only [contains, if_neg hxy, ih, List.mem_cons]
      constructor
      · exact Or.inr
      · rintro (hx | hx)
        · exact absurd hx.symm hxy
        · exact hx

theorem readN_eq_some {n : Nat} {s a b : List Nat} (h : readN n s = some (a, b)) :
    a ++ b = s ∧ a.length = n := by
  unfold readN at h
  split at h
  · rename_i hle
    injection h with h'
    injection h' with ha hb
    subst ha
    subst hb
    exact ⟨List.take_append_drop n s, by simp [List.length_take, Nat.min_eq_left hle]⟩
  · exact absurd h (by simp)

theorem set_last_dropLast_perm (a : List α) (i : Nat) (h : i < a.length) (last : α)
    (hl : a.getLast? = some last) :
    List.Perm ((a.set i last).dropLast) (a.eraseIdx i) := by
  induction a generalizing i with
  | nil => simp at h
  | cons x xs ih =>
    cases xs with
    | nil =>
      have hi : i = 0 := by simpa using h
      subst hi
      simp at hl
      subst hl
      simp
    | cons y ys =>
      cases i with
      | zero =>
        rw [List.getLast?_cons_cons] at hl
        have hly : (y :: ys).dropLast ++ [last] = y :: ys :=
          List.dropLast_append_getLast? last hl
        have hstep : ((x :: y :: ys).set 0 last).dropLast
            = last :: (y :: ys).dropLast := by
          rw [List.set_cons_zero]
          exact List.dropLast_cons_of_ne_nil (by simp)
        rw [hstep, List.eraseIdx_cons_zero]
        have hperm : List.Perm (last :: (y :: ys).dropLast) ((y :: ys).dropLast ++ [last]) :=
          (List.perm_append_singleton last _).symm
        rw [hly] at hperm
        exact hperm
      | succ j =>
        have hj : j < (y :: ys).length := by simpa using h
        rw [List.getLast?_cons_cons] at hl
        have hset : (x :: y :: ys).set (j + 1) last = x :: (y :: ys).set j last :=
          List.set_cons_succ ..
        have hne : (y :: ys).set j last ≠ [] := by
          intro hcon
          have := congrArg List.length hcon
          simp at this
        rw [hset, List.dropLast_cons_of_ne_nil hne, List.eraseIdx_cons_succ]
        exact List.Perm.cons x (ih j hj hl)

theorem removeAtIndexNoOrder_perm (a : List α) (i : Nat) (h : i < a.length) :
    List.Perm (removeAtIndexNoOrder a (Int.ofNat i)) (a.eraseIdx i) := by
  unfold removeAtIndexNoOrder
  have hguard : ¬(Int.ofNat i < 0 ∨ (a.length : Int) ≤ Int.ofNat i) := by
    push_neg
    refine ⟨Int.ofNat_nonneg i, ?_⟩
    have hofnat : Int.ofNat i = (i : Int) := rfl
    rw [hofnat]
    omega
  rw [if_neg hguard]
  match ha : a.getLast? with
  | none =>
    have : a = [] := List.getLast?_eq_none_iff.mp ha
    subst this
    simp at h
  | some last =>
    have htn : (Int.ofNat i).toNat = i := rfl
    rw [htn]
    exact set_last_dropLast_perm a i h last ha

theorem get_cons_eraseIdx_perm (a : List α) (i : Nat) (h : i < a.length) :
    List.Perm (a.get ⟨i, h⟩ :: a.eraseIdx i) a := by
  induction a generalizing i with
  | nil => simp at h
  | cons x xs ih =>
    cases i with
    | zero => simp
    | succ j =>
      have hj : j < xs.length := by simpa using h
      have hswap : List.Perm (xs.get ⟨j, hj⟩ :: x :: xs.eraseIdx j)
          (x :: xs.get ⟨j, hj⟩ :: xs.eraseIdx j) :=
        List.Perm.swap x (xs.get ⟨j, hj⟩) (xs.eraseIdx j)
      have hget : (x :: xs).get ⟨j + 1, h⟩ = xs.get ⟨j, hj⟩ := rfl
      rw [hget, List.eraseIdx_cons_succ]
      exact hswap.trans (List.Perm.cons x (ih j hj))

/-! Claim theorems. -/

/-- C1: the CONNECT request read from the client is forwarded byte-for-byte
to the upstream, and an OK reply is claimed to be forwarded byte-for-byte
back to the client.  The code violates the reply direction: for a
domain-typed OK reply the upstream sends 10 bytes
`[5,0,0,3, 3, 97,98,99, 0,80]` (all consumed), but `readSocks5Response`
drops the domain-length byte, so only 9 bytes `[5,0,0,3, 97,98,99, 0,80]`
are written back to the client. -/
theorem sendRemoteRequest_domain_reply_not_verbatim :
    sendRemoteRequest [5, 1, 0, 1, 93, 184, 216, 34, 0, 80]
        [5, 0, 0, 3, 3, 97, 98, 99, 0, 80] =
      ([5, 0, 0, 3, 97, 98, 99, 0, 80],
       [5, 1, 0, 1, 93, 184, 216, 34, 0, 80],
       .ok ([], [])) ∧
    ([5, 0, 0, 3, 97, 98, 99, 0, 80] : List Nat) ≠
      [5, 0, 0, 3, 3, 97, 98, 99, 0, 80] := by
  constructor
  · rfl
  · decide

/-- C7: the upstream subnegotiation message is exactly the subversion byte
1, a byte holding the username's length, the username, a byte holding the
password's length, and the password, whenever both credentials are at most
255 bytes long. -/
theorem authRequestBytes_spec (u p : List Nat)
    (hu : u.length ≤ 255) (hp : p.length ≤ 255) :
    authRequestBytes u p = 1 :: u.length :: (u ++ p.length :: p) := by
  unfold authRequestBytes
  rw [Nat.mod_eq_of_lt (by omega), Nat.mod_eq_of_lt (by omega)]

/-- Witness for C7 at the concrete credentials "hi" / "pw". -/
theorem authRequestBytes_spec_witness :
    authRequestBytes [104, 105] [112, 119]
      = 1 :: 2 :: ([104, 105] ++ 2 :: [112, 119]) :=
  authRequestBytes_spec [104, 105] [112, 119] (by decide) (by decide)

/-- C8: when the first copy direction of the relay to be observed ends in a
connection reset, `syncConns` returns a clean (non-error) outcome; any
other I/O failure observed first is returned as an error; a graceful EOF is
clean; in every case both sockets are closed by the time it returns. -/
theorem syncConns_spec (m : String) :
    (syncConns .reset).err = none ∧
    (syncConns (.fail m)).err = some m ∧
    (syncConns .eof).err = none ∧
    (∀ o : CopyEnd, (syncConns o).clientClosed = true ∧ (syncConns o).remoteClosed = true) :=
  ⟨rfl, rfl, rfl, fun _ => ⟨rfl, rfl⟩⟩

/-- C9: the open-connection ceiling is claimed to admit at most N
connections with each completion's release unblocking one acquisition.
The code's release is a send on the same capacity-N channel as the
acquisition, so with ceiling 1 the first admission fills the channel, the
completing connection's release blocks instead of freeing the slot, the
next acquisition blocks forever, and no send ever lowers the occupancy. -/
theorem semaphore_release_never_frees :
    acquireSlot 1 0 = some 1 ∧
    releaseSlot 1 1 = none ∧
    acquireSlot 1 1 = none ∧
    (∀ cap count next, releaseSlot cap count = some next → count < next) := by
  refine ⟨rfl, rfl, rfl, fun cap count next h => ?_⟩
  unfold releaseSlot chanSend at h
  split at h
  · injection h with h'
    omega
  · exact absurd h (by simp)

/-- C10: the swap-remove eviction helper returns the slice unchanged for
any out-of-range index, and for an in-range index returns a slice one
element shorter holding exactly the original elements minus the one at
that index (order not preserved). -/
theorem removeAtIndexNoOrder_spec (a : List α) (idx : Int) :
    ((idx < 0 ∨ (a.length : Int) ≤ idx) → removeAtIndexNoOrder a idx = a) ∧
    (0 ≤ idx → idx < (a.length : Int) →
      (removeAtIndexNoOrder a idx).length = a.length - 1 ∧
      List.Perm (removeAtIndexNoOrder a idx) (a.eraseIdx idx.toNat)) := by
  constructor
  · intro hout
    unfold removeAtIndexNoOrder
    rw [if_pos hout]
  · intro h0 hlt
    have hofnat : Int.ofNat idx.toNat = idx := Int.toNat_of_nonneg h0
    have hi : idx.toNat < a.length := by omega
    have hperm := removeAtIndexNoOrder_perm a idx.toNat hi
    rw [hofnat] at hperm
    refine ⟨?_, hperm⟩
    rw [hperm.length_eq, List.length_eraseIdx]
    simp [hi]

/-- Witness for C10: evicting index 1 from `[10, 20, 30]` and probing an
out-of-range index. -/
theorem removeAtIndexNoOrder_spec_witness :
    removeAtIndexNoOrder ([10, 20, 30] : List Nat) 5 = [10, 20, 30] ∧
    (removeAtIndexNoOrder ([10, 20, 30] : List Nat) 1).length = 2 ∧
    List.Perm (removeAtIndexNoOrder ([10, 20, 30] : List Nat) 1)
      (([10, 20, 30] : List Nat).eraseIdx 1) :=
  ⟨(removeAtIndexNoOrder_spec [10, 20, 30] 5).1 (by decide),
   ((removeAtIndexNoOrder_spec [10, 20, 30] 1).2 (by decide) (by decide)).1,
   ((removeAtIndexNoOrder_spec [10, 20, 30] 1).2 (by decide) (by decide)).2⟩

/-- C3: for a version-5 greeting whose method list contains 0 (no
authentication) the server writes exactly `[5, 0]` and succeeds; when the
method list does not contain 0 it writes exactly `[5, 0xff]`, fails, and
the connection handler stops there — nothing is sent to the upstream and
no relay starts. -/
theorem greetClient_spec (n : Nat) (methods rest rIn u p : List Nat)
    (hlen : methods.length = n) :
    (0 ∈ methods →
      greetClient (5 :: n :: (methods ++ rest)) = ([5, 0], .ok rest)) ∧
    (0 ∉ methods →
      greetClient (5 :: n :: (methods ++ rest)) = ([5, 255], .error .noAcceptableAuth) ∧
      (handleConnection (5 :: n :: (methods ++ rest)) rIn u p).relayStarted = false ∧
      (handleConnection (5 :: n :: (methods ++ rest)) rIn u p).toRemote = []) := by
  subst hlen
  have hread : readN methods.length (methods ++ rest) = some (methods, rest) := by
    unfold readN
    rw [if_pos (by simp), List.take_left, List.drop_left]
  constructor
  · intro hmem
    have hcont : contains methods 0 = true := (contains_iff_mem methods 0).mpr hmem
    simp only [greetClient]
    rw [hread]
    simp [hcont]
  · intro hmem
    have hcont : contains methods 0 = false := by
      rw [Bool.eq_false_iff]
      intro hcon
      exact hmem ((contains_iff_mem methods 0).mp hcon)
    have hgreet : greetClient (5 :: methods.length :: (methods ++ rest))
        = ([5, 255], .error .noAcceptableAuth) := by
      simp only [greetClient]
      rw [hread]
      simp [hcont]
    exact ⟨hgreet, by simp [handleConnection, hgreet], by simp [handleConnection, hgreet]⟩

/-- Witness for C3: a greeting offering methods `[2, 0]` succeeds with
`[5, 0]`; a greeting offering only `[2]` is refused with `[5, 255]` and
the handler stops before contacting the upstream. -/
theorem greetClient_spec_witness :
    greetClient (5 :: 2 :: ([2, 0] ++ [9])) = ([5, 0], .ok [9]) ∧
    greetClient (5 :: 1 :: ([2] ++ [9])) = ([5, 255], .error .noAcceptableAuth) ∧
    (handleConnection (5 :: 1 :: ([2] ++ [9])) [] [] []).relayStarted = false ∧
    (handleConnection (5 :: 1 :: ([2] ++ [9])) [] [] []).toRemote = [] :=
  ⟨(greetClient_spec 2 [2, 0] [9] [] [] [] rfl).1 (by decide),
   ((greetClient_spec 1 [2] [9] [] [] [] rfl).2 (by decide)).1,
   ((greetClient_spec 1 [2] [9] [] [] [] rfl).2 (by decide)).2.1,
   ((greetClient_spec 1 [2] [9] [] [] [] rfl).2 (by decide)).2.2⟩

/-- C6: a request whose command byte is not CONNECT is answered with the
"command not supported" reply `[5, 7]` and fails without anything being
forwarded to the upstream; a CONNECT request whose address-type byte is
none of 1/3/4 is answered with "address type not supported" `[5, 8]` and
likewise fails without forwarding. -/
theorem readSocks5Request_reject_spec (cmd rsv atyp : Nat) (rest rIn : List Nat) :
    (cmd ≠ 1 →
      readSocks5Request (5 :: cmd :: rsv :: atyp :: rest)
        = ([5, 7], .error (.unsupportedCommand cmd)) ∧
      sendRemoteRequest (5 :: cmd :: rsv :: atyp :: rest) rIn
        = ([5, 7], [], .error (.unsupportedCommand cmd))) ∧
    (cmd = 1 → atyp ≠ 1 → atyp ≠ 3 → atyp ≠ 4 →
      readSocks5Request (5 :: cmd :: rsv :: atyp :: rest)
        = ([5, 8], .error (.unsupportedAddrType atyp)) ∧
      sendRemoteRequest (5 :: cmd :: rsv :: atyp :: rest) rIn
        = ([5, 8], [], .error (.unsupportedAddrType atyp))) := by
  constructor
  · intro hcmd
    have hreq : readSocks5Request (5 :: cmd :: rsv :: atyp :: rest)
        = ([5, 7], .error (.unsupportedCommand cmd)) := by
      unfold readSocks5Request
      simp [hcmd]
    refine ⟨hreq, ?_⟩
    unfold sendRemoteRequest
    rw [hreq]
  · intro hcmd h1 h3 h4
    subst hcmd
    have hreq : readSocks5Request (5 :: 1 :: rsv :: atyp :: rest)
        = ([5, 8], .error (.unsupportedAddrType atyp)) := by
      unfold readSocks5Request
      simp [h1, h3, h4]
    refine ⟨hreq, ?_⟩
    unfold sendRemoteRequest
    rw [hreq]

/-- Witness for C6: the BIND command (2) is rejected with `[5, 7]`; an
unknown address type 9 is rejected with `[5, 8]`; in both cases nothing is
written to the upstream. -/
theorem readSocks5Request_reject_spec_witness :
    (readSocks5Request [5, 2, 0, 1]
        = ([5, 7], .error (.unsupportedCommand 2)) ∧
      sendRemoteRequest [5, 2, 0, 1] []
        = ([5, 7], [], .error (.unsupportedCommand 2))) ∧
    (readSocks5Request [5, 1, 0, 9]
        = ([5, 8], .error (.unsupportedAddrType 9)) ∧
      sendRemoteRequest [5, 1, 0, 9] []
        = ([5, 8], [], .error (.unsupportedAddrType 9))) :=
  ⟨(readSocks5Request_reject_spec 2 0 1 [] []).1 (by decide),
   (readSocks5Request_reject_spec 1 0 9 [] []).2 rfl (by decide) (by decide) (by decide)⟩

/-- C5: after a successful client greeting, a non-zero upstream
subnegotiation status makes the handler fail with the
authentication-rejected error before any CONNECT byte reaches the
upstream (only the method offer and the subnegotiation were sent) and the
relay never starts; a zero status lets the session proceed to the
CONNECT-forwarding stage, and when that stage succeeds the relay starts. -/
theorem authenticateRemoteSocks_status_spec (cIn gw c1 r1 : List Nat) (mv sv st : Nat)
    (u p : List Nat) (hg : greetClient cIn = (gw, .ok c1)) :
    (st ≠ 0 →
      authenticateRemoteSocks (mv :: 2 :: sv :: st :: r1) u p
        = ([5, 1, 2] ++ authRequestBytes u p, .error .authRejected) ∧
      (handleConnection cIn (mv :: 2 :: sv :: st :: r1) u p).err = some .authRejected ∧
      (handleConnection cIn (mv :: 2 :: sv :: st :: r1) u p).relayStarted = false ∧
      (handleConnection cIn (mv :: 2 :: sv :: st :: r1) u p).toRemote
        = [5, 1, 2] ++ authRequestBytes u p) ∧
    (st = 0 →
      authenticateRemoteSocks (mv :: 2 :: sv :: st :: r1) u p
        = ([5, 1, 2] ++ authRequestBytes u p, .ok r1) ∧
      (∀ wc wr2 crest rrest,
        sendRemoteRequest c1 r1 = (wc, wr2, .ok (crest, rrest)) →
        (handleConnection cIn (mv :: 2 :: sv :: st :: r1) u p).relayStarted = true)) := by
  constructor
  · intro hst
    have hauth : authenticateRemoteSocks (mv :: 2 :: sv :: st :: r1) u p
        = ([5, 1, 2] ++ authRequestBytes u p, .error .authRejected) := by
      unfold authenticateRemoteSocks
      simp [hst]
    refine ⟨hauth, ?_, ?_, ?_⟩ <;> simp [handleConnection, hg, hauth]
  · intro hst
    subst hst
    have hauth : authenticateRemoteSocks (mv :: 2 :: sv :: 0 :: r1) u p
        = ([5, 1, 2] ++ authRequestBytes u p, .ok r1) := by
      unfold authenticateRemoteSocks
      simp
    refine ⟨hauth, fun wc wr2 crest rrest hsend => ?_⟩
    simp only [handleConnection, hg, hauth, hsend]

/-- Witness for C5: greeting `[5,1,0]`, upstream method reply `[5,2]`,
then status reply `[1,1]` (rejected) versus `[1,0]` (accepted, with a
successful IPv4 CONNECT exchange following). -/
theorem authenticateRemoteSocks_status_spec_witness :
    ((handleConnection [5, 1, 0] [5, 2, 1, 1] [104] [112]).err = some .authRejected ∧
     (handleConnection [5, 1, 0] [5, 2, 1, 1] [104] [112]).relayStarted = false) ∧
    (handleConnection ([5, 1, 0] ++ [5, 1, 0, 1, 9, 9, 9, 9, 0, 80])
        [5, 2, 1, 0, 5, 0, 0, 1, 1, 2, 3, 4, 0, 80] [104] [112]).relayStarted = true :=
  ⟨⟨((authenticateRemoteSocks_status_spec [5, 1, 0] [5, 0] [] [] 5 1 1 [104] [112]
        rfl).1 (by decide)).2.1,
    ((authenticateRemoteSocks_status_spec [5, 1, 0] [5, 0] [] [] 5 1 1 [104] [112]
        rfl).1 (by decide)).2.2.1⟩,
   ((authenticateRemoteSocks_status_spec ([5, 1, 0] ++ [5, 1, 0, 1, 9, 9, 9, 9, 0, 80])
        [5, 0] [5, 1, 0, 1, 9, 9, 9, 9, 0, 80] [5, 0, 0, 1, 1, 2, 3, 4, 0, 80]
        5 1 0 [104] [112] (by rfl)).2 rfl).2
     [5, 0, 0, 1, 1, 2, 3, 4, 0, 80] [5, 1, 0, 1, 9, 9, 9, 9, 0, 80] [] [] (by rfl)⟩

/-- C2: whenever a CONNECT request is read successfully, the bytes
consumed are exactly a prefix of the input of fully determined size — 4
header bytes plus 4 address bytes for IPv4, 16 for IPv6, or 1 length byte
and exactly that many bytes for a domain (any length value, 0 and 255
included), plus 2 port bytes — and the rest of the stream is untouched. -/
theorem readSocks5Request_consumes (s w req rest : List Nat)
    (h : readSocks5Request s = (w, .ok (req, rest))) :
    req ++ rest = s ∧
    ((s[3]? = some 1 ∧ req.length = 10) ∨
     (s[3]? = some 4 ∧ req.length = 22) ∨
     (∃ L, s[3]? = some 3 ∧ s[4]? = some L ∧ req.length = 7 + L)) := by
  rcases s with _ | ⟨ver, _ | ⟨cmd, _ | ⟨rsv, _ | ⟨atyp, rest0⟩⟩⟩⟩
  · simp [readSocks5Request] at h
  · simp [readSocks5Request] at h
  · simp [readSocks5Request] at h
  · simp [readSocks5Request] at h
  · simp only [readSocks5Request] at h
    split at h
    · simp at h
    · split at h
      · simp at h
      · split at h
        · rename_i hv hc h1
          split at h
          · rename_i body s2 hr
            obtain ⟨hbs, hblen⟩ := readN_eq_some hr
            injection h with hw hok
            injection hok with hreq
            injection hreq with hreqv hrest
            subst hreqv
            subst hrest
            refine ⟨by simp [hbs], Or.inl ⟨by simp [h1], by simp [hblen]⟩⟩
          · simp at h
        · split at h
          · rename_i hv hc h1 h3
            rcases rest0 with _ | ⟨len, rest2⟩
            · simp at h
            · split at h
              · rename_i body s2 hr
                injection hr with hlb hrs
                subst hlb
                subst hrs
                split at h
                · rename_i body2 s3 hr2
                  obtain ⟨hbs, hblen⟩ := readN_eq_some hr2
                  injection h with hw hok
                  injection hok with hreq
                  injection hreq with hreqv hrest
                  subst hreqv
                  subst hrest
                  refine ⟨by simp [hbs], Or.inr (Or.inr ⟨len, by simp [h3], by simp, ?_⟩)⟩
                  simp [hblen]
                  omega
                · simp at h
              · rename_i hr
                simp at hr
          · split at h
            · rename_i hv hc h1 h3 h4
              split at h
              · rename_i body s2 hr
                obtain ⟨hbs, hblen⟩ := readN_eq_some hr
                injection h with hw hok
                injection hok with hreq
                injection hreq with hreqv hrest
                subst hreqv
                subst hrest
                refine ⟨by simp [hbs], Or.inr (Or.inl ⟨by simp [h4], by simp [hblen]⟩)⟩
              · simp at h
            · simp at h

/-- Witness for C2: a domain-typed request with length byte 0 consumes
exactly 4 + 1 + 0 + 2 = 7 bytes. -/
theorem readSocks5Request_consumes_witness :
    ([5, 1, 0, 3, 0, 0, 80] : List Nat) ++ [] = [5, 1, 0, 3, 0, 0, 80] ∧
    ((([5, 1, 0, 3, 0, 0, 80] : List Nat)[3]? = some 1 ∧
        ([5, 1, 0, 3, 0, 0, 80] : List Nat).length = 10) ∨
     (([5, 1, 0, 3, 0, 0, 80] : List Nat)[3]? = some 4 ∧
        ([5, 1, 0, 3, 0, 0, 80] : List Nat).length = 22) ∨
     (∃ L, ([5, 1, 0, 3, 0, 0, 80] : List Nat)[3]? = some 3 ∧
        ([5, 1, 0, 3, 0, 0, 80] : List Nat)[4]? = some L ∧
        ([5, 1, 0, 3, 0, 0, 80] : List Nat).length = 7 + L)) :=
  readSocks5Request_consumes [5, 1, 0, 3, 0, 0, 80] [] [5, 1, 0, 3, 0, 0, 80] [] (by rfl)

/-- C4: starting from any pool with enough modelled random draws, if some
candidate is reachable the resolver returns a reachable candidate's
address with ":1080" appended, that candidate is still in the final pool,
and the final pool is exactly the initial pool minus some set of probed
unreachable candidates; if every candidate is unreachable the resolver
fails (returns no server) and the pool ends empty. -/
theorem findNordVpnServer_spec (reach : String → Bool) (picks : List Nat) (pool : List String)
    (hp : pool.length ≤ picks.length) :
    ((∀ s ∈ pool, reach s = false) → findNordVpnServer reach picks pool = (none, [])) ∧
    ((∃ s ∈ pool, reach s = true) →
      ∃ c fp rem, findNordVpnServer reach picks pool = (some (c ++ ":1080"), fp) ∧
        reach c = true ∧ c ∈ fp ∧ (∀ x ∈ rem, reach x = false) ∧
        (fp : Multiset String) + rem = (pool : Multiset String)) := by
  induction picks generalizing pool with
  | nil =>
    have hpool : pool = [] := List.length_eq_zero.mp (Nat.le_zero.mp hp)
    subst hpool
    exact ⟨fun _ => rfl, fun ⟨s, hs, _⟩ => absurd hs (by simp)⟩
  | cons pick picks ih =>
    by_cases hlen : pool.length = 0
    · have hpool : pool = [] := List.length_eq_zero.mp hlen
      subst hpool
      exact ⟨fun _ => by simp [findNordVpnServer], fun ⟨s, hs, _⟩ => absurd hs (by simp)⟩
    · have hpos : 0 < pool.length := Nat.pos_of_ne_zero hlen
      have hilt : pick % pool.length < pool.length := Nat.mod_lt pick hpos
      by_cases hr : reach (pool.get ⟨pick % pool.length, hilt⟩) = true
      · have hstep : findNordVpnServer reach (pick :: picks) pool
            = (some (pool.get ⟨pick % pool.length, hilt⟩ ++ ":1080"), pool) := by
          simp only [findNordVpnServer]
          rw [dif_neg hlen, if_pos hr]
        have hcmem : pool.get ⟨pick % pool.length, hilt⟩ ∈ pool := pool.get_mem _ _
        constructor
        · intro hall
          rw [hall _ hcmem] at hr
          exact absurd hr (by simp)
        · intro _
          exact ⟨_, pool, 0, hstep, hr, hcmem, by simp, by simp⟩
      · have hrf : reach (pool.get ⟨pick % pool.length, hilt⟩) = false := by
          simpa using hr
        have hstep : findNordVpnServer reach (pick :: picks) pool
            = findNordVpnServer reach picks
                (removeAtIndexNoOrder pool (Int.ofNat (pick % pool.length))) := by
          simp only [findNordVpnServer]
          rw [dif_neg hlen, if_neg hr]
        have hperm := removeAtIndexNoOrder_perm pool (pick % pool.length) hilt
        have hpermc := get_cons_eraseIdx_perm pool (pick % pool.length) hilt
        have hlen' : (removeAtIndexNoOrder pool (Int.ofNat (pick % pool.length))).length
            = pool.length - 1 := by
          rw [hperm.length_eq, List.length_eraseIdx]
          simp [hilt]
        have hp' : (removeAtIndexNoOrder pool (Int.ofNat (pick % pool.length))).length
            ≤ picks.length := by
          rw [hlen']
          simp only [List.length_cons] at hp
          omega
        obtain ⟨ih1, ih2⟩ := ih (removeAtIndexNoOrder pool (Int.ofNat (pick % pool.length))) hp'
        constructor
        · intro hall
          rw [hstep]
          apply ih1
          intro x hx
          exact hall x (hpermc.mem_iff.mp (List.mem_cons_of_mem _ (hperm.mem_iff.mp hx)))
        · rintro ⟨s, hs, hsr⟩
          have hsne : s ≠ pool.get ⟨pick % pool.length, hilt⟩ := by
            intro hcon
            rw [hcon] at hsr
            rw [hsr] at hrf
            exact absurd hrf (by simp)
          have hs' : s ∈ pool.eraseIdx (pick % pool.length) := by
            rcases List.mem_cons.mp (hpermc.mem_iff.mpr hs) with hc | hc
            · exact absurd hc hsne
            · exact hc
          have hs'' : s ∈ removeAtIndexNoOrder pool (Int.ofNat (pick % pool.length)) :=
            hperm.mem_iff.mpr hs'
          obtain ⟨c, fp, rem, heq, hcr, hcfp, hremf, hmul⟩ := ih2 ⟨s, hs'', hsr⟩
          refine ⟨c, fp, rem + {pool.get ⟨pick % pool.length, hilt⟩}, ?_, hcr, hcfp, ?_, ?_⟩
          · rw [hstep]
            exact heq
          · intro x hx
            rcases Multiset.mem_add.mp hx with hx2 | hx2
            · exact hremf x hx2
            · rw [Multiset.mem_singleton.mp hx2]
              exact hrf
          · have h1 : ((removeAtIndexNoOrder pool (Int.ofNat (pick % pool.length)) : List String)
                : Multiset String) = ((pool.eraseIdx (pick % pool.length) : List String) : Multiset String) :=
              Multiset.coe_eq_coe.mpr hperm
            have h2 : pool.get ⟨pick % pool.length, hilt⟩ ::ₘ
                ((pool.eraseIdx (pick % pool.length) : List String) : Multiset String)
                = (pool : Multiset String) := by
              rw [Multiset.cons_coe]
              exact Multiset.coe_eq_coe.mpr hpermc
            rw [← add_assoc, hmul, h1]
            rw [add_comm, Multiset.singleton_add]
            exact h2

/-- Witness for C4: pool `["a", "b"]` where only `"b"` is reachable and the
random draws probe index 0 twice: `"a"` is evicted, then `"b:1080"` is
returned. -/
theorem findNordVpnServer_spec_witness :
    ∃ c fp rem,
      findNordVpnServer (fun s => decide (s = "b")) [0, 0] ["a", "b"]
        = (some (c ++ ":1080"), fp) ∧
      (fun s => decide (s = "b")) c = true ∧ c ∈ fp ∧
      (∀ x ∈ rem, (fun s => decide (s = "b")) x = false) ∧
      (fp : Multiset String) + rem = ((["a", "b"] : List String) : Multiset String) :=
  (findNordVpnServer_spec (fun s => decide (s = "b")) [0, 0] ["a", "b"] (by decide)).2
    ⟨"b", by decide, by decide⟩

end SocksAuth
